import Mathlib

/-!
Verification development for the multi-account EC2 inventory collector
(`main.go`).  The program loads a JSON array of accounts, fetches each
account's instances concurrently, merges the results and emits a console
table plus a timestamped CSV file.

Modelling conventions:
* Pointer-typed AWS SDK fields (`Instance.InstanceId`, `Tag.Key`, `Tag.Value`)
  are `Option String`; dereferencing a nil pointer is modelled by `none`
  propagating through an `Option`-valued computation (a Go runtime panic).
* The network boundary is a `FetchEnv`: the result of
  `config.LoadDefaultConfig` and the sequence of responses the
  `DescribeInstances` API would return to successive calls.
* The channel merge of `main` receives the per-account lists in an arbitrary
  arrival order; the arrival order is modelled as a permutation of the list
  of per-account result lists.
-/

set_option autoImplicit false

namespace EC2Tools

/-- An AWS SDK tag: `Key` and `Value` are string pointers (possibly nil). -/
structure AwsTag where
  key : Option String
  value : Option String
  deriving Repr, DecidableEq

/-- An AWS SDK instance as contained in a `DescribeInstances` reservation:
`InstanceId` is a string pointer, `InstanceType` is a plain enum-backed
string, `Tags` is a slice of tags. -/
structure AwsInstance where
  instanceId : Option String
  instanceType : String
  tags : List AwsTag
  deriving Repr, DecidableEq

/-- A reservation groups instances in a `DescribeInstances` response. -/
structure Reservation where
  instances : List AwsInstance
  deriving Repr, DecidableEq

/-- One page of a `DescribeInstances` response: the reservations plus the
pagination token for the next page (ignored by `main.go`). -/
structure DescribeResponse where
  reservations : List Reservation
  nextToken : Option String
  deriving Repr, DecidableEq

/-- The `EC2Instance` record struct of `main.go`. -/
structure EC2Instance where
  accountID : String
  instanceID : String
  tagName : String
  instanceType : String
  deriving Repr, DecidableEq

/-- The `AccountConfig` struct of `main.go` (one JSON entry of the accounts
file). -/
structure AccountConfig where
  accountID : String
  roleArn : String
  deriving Repr, DecidableEq

/-- The Name-tag loop of `getEC2Instances` (lines 93-99): start from `"-"`,
walk the tags, on the first tag whose dereferenced key equals `"Name"` take
its dereferenced value and break.  `none` models a nil-pointer dereference
(Go panic): the key pointer of every tag visited before the first match is
dereferenced, and the value pointer of the matching tag. -/
def findNameTag : List AwsTag → Option String
  | [] => some "-"
  | t :: ts =>
    match t.key with
    | none => none
    | some k => if k = "Name" then t.value else findNameTag ts

/-- Construction of one `EC2Instance` record inside the reservation loop of
`getEC2Instances` (lines 89-106): dereference the instance id, run the
Name-tag loop, copy the instance type verbatim. -/
def mkRecord (accountID : String) (inst : AwsInstance) : Option EC2Instance :=
  match inst.instanceId with
  | none => none
  | some iid =>
    match findNameTag inst.tags with
    | none => none
    | some tn => some ⟨accountID, iid, tn, inst.instanceType⟩

/-- The instances of a response in visit order: the nested
`for reservation ... for instance ...` loop of lines 87-88. -/
def allInstancesOf (reservations : List Reservation) : List AwsInstance :=
  reservations.flatMap (fun r => r.instances)

/-- The record-collection loop of `getEC2Instances` (lines 86-108); a nil
dereference anywhere aborts the whole collection (Go panic). -/
def collectLoop (accountID : String) : List AwsInstance → Option (List EC2Instance)
  | [] => some []
  | inst :: rest =>
    match mkRecord accountID inst with
    | none => none
    | some r =>
      match collectLoop accountID rest with
      | none => none
      | some rs => some (r :: rs)

/-- All records built from one `DescribeInstances` response. -/
def collectRecords (accountID : String) (reservations : List Reservation) :
    Option (List EC2Instance) :=
  collectLoop accountID (allInstancesOf reservations)

/-- The external environment one fetch runs against: the outcome of
`config.LoadDefaultConfig` and the response the inventory API would return
to the n-th `DescribeInstances` call. -/
structure FetchEnv where
  cfgLoad : Except String Unit
  describe : Nat → Except String DescribeResponse

/-- True on the error branch of an `Except` value. -/
def exceptFailed {α : Type} : Except String α → Bool
  | .error _ => true
  | .ok _ => false

/-- The body of `getEC2Instances` (lines 58-112).  Returns the value sent on
the results channel (`none` = the goroutine panicked before sending) paired
with the number of `DescribeInstances` calls issued.  On a config-load error
or a query error the function logs and sends the empty slice.  Exactly one
`DescribeInstances` call is made (`env.describe 0`); `NextToken` is never
consulted and no retry is attempted. -/
def getEC2Instances (accountID : String) (env : FetchEnv) :
    Option (List EC2Instance) × Nat :=
  match env.cfgLoad with
  | .error _ => (some [], 0)
  | .ok _ =>
    match env.describe 0 with
    | .error _ => (some [], 1)
    | .ok resp => (collectRecords accountID resp.reservations, 1)

/-- Sequential model of the fan-out of `main` (lines 173-186): one fetch per
entry of the account map, collecting the per-account result lists.  `none`
models a panic in one of the goroutines. -/
def fetchAll (envOf : String → FetchEnv) :
    List (String × String) → Option (List (List EC2Instance))
  | [] => some []
  | p :: ps =>
    match (getEC2Instances p.1 (envOf p.1)).1 with
    | none => none
    | some l =>
      match fetchAll envOf ps with
      | none => none
      | some ls => some (l :: ls)

/-- The merged `allInstances` list of `main` for one dispatch order of the
account map. -/
def runAll (accounts : List (String × String)) (envOf : String → FetchEnv) :
    Option (List EC2Instance) :=
  (fetchAll envOf accounts).map List.flatten

/-- The channel-drain merge of `main` (lines 183-186): the arrival order of
the per-account lists is arbitrary, the merge concatenates them. -/
def runMerged (arrival : List (List EC2Instance)) : List EC2Instance :=
  arrival.flatten

/-- The map-insertion `accounts[acc.AccountID] = acc.RoleArn` of
`loadAccountsFromFile` (line 51), on an association-list model of the Go
map: overwrite the entry carrying the key when present, add the binding
otherwise. -/
def insertAccount : List (String × String) → String → String → List (String × String)
  | [], k, v => [(k, v)]
  | p :: rest, k, v =>
    if p.1 = k then (k, v) :: rest else p :: insertAccount rest k v

/-- The map-building loop of `loadAccountsFromFile` (lines 49-52), applied
to the decoded JSON array. -/
def loadAccounts (configs : List AccountConfig) : List (String × String) :=
  configs.foldl (fun m acc => insertAccount m acc.accountID acc.roleArn) []

/-- Keys of the account map. -/
def accountKeys (m : List (String × String)) : List String :=
  m.map Prod.fst

/-- Number of times `main` invokes the fetcher: one goroutine per entry of
the account map (lines 173-176). -/
def fetcherInvocations (configs : List AccountConfig) : Nat :=
  (loadAccounts configs).length

/-- Tag-name selection as the spec words it: the value of the first tag
whose key is exactly `"Name"`, defaulting to `"-"` when no such tag exists.
This definition follows the spec sentence, to be compared with
`findNameTag`, which follows the code. -/
def specTagName : List AwsTag → String
  | [] => "-"
  | t :: ts => if t.key = some "Name" then (t.value).getD "-" else specTagName ts

/-! ### CSV rendering (`writeCSV`, lines 115-147, over `encoding/csv`) -/

/-- Field-quoting predicate of Go's `encoding/csv` writer with the default
comma delimiter: the empty field is unquoted; `\.`, fields containing a
comma, a double quote, CR or LF, and fields starting with white space are
quoted. -/
def fieldNeedsQuotes (s : String) : Bool :=
  if s = "" then false
  else if s = "\\." then true
  else if s.data.any (fun c => c = ',' || c = '"' || c = '\r' || c = '\n') then true
  else
    match s.data with
    | [] => false
    | c :: _ => c.isWhitespace

/-- Quote-escaping of `encoding/csv`: every `"` becomes `""`. -/
def escapeQuotes : List Char → List Char
  | [] => []
  | c :: rest => if c = '"' then '"' :: '"' :: escapeQuotes rest else c :: escapeQuotes rest

/-- Inverse of `escapeQuotes`: collapse each doubled `""` back to `"`. -/
def unescapeQuotes : List Char → List Char
  | [] => []
  | [c] => [c]
  | c :: d :: rest =>
    if c = '"' ∧ d = '"' then '"' :: unescapeQuotes rest
    else c :: unescapeQuotes (d :: rest)

/-- Rendering of one CSV field: quoted and escaped when needed, verbatim
otherwise. -/
def renderField (s : String) : String :=
  if fieldNeedsQuotes s then String.mk ('"' :: (escapeQuotes s.data ++ ['"'])) else s

/-- Rendering of one CSV row: fields joined by commas. -/
def renderRow (fields : List String) : String :=
  String.intercalate "," (fields.map renderField)

/-- The header written by `writeCSV` (line 128). -/
def headerRow : List String :=
  ["Account ID", "Instance ID", "Tag Name", "Instance Type"]

/-- The data row written for one record (lines 135-140). -/
def recordRow (r : EC2Instance) : List String :=
  [r.accountID, r.instanceID, r.tagName, r.instanceType]

/-- The sequence of rows `writeCSV` hands to the CSV writer: header first,
then one row per record in list order. -/
def csvRows (records : List EC2Instance) : List (List String) :=
  headerRow :: records.map recordRow

/-- The byte content of the CSV file: each row rendered and terminated by a
newline. -/
def csvContent (records : List EC2Instance) : String :=
  String.join ((csvRows records).map (fun row => renderRow row ++ "\n"))

/-- Parsing one CSV field back, modelled from the spec's standard
field-quoting rules: strip a surrounding quote pair and collapse doubled
quotes, otherwise take the field verbatim. -/
def parseField (s : String) : String :=
  if s.data.head? = some '"' ∧ s.data.tail.getLast? = some '"' then
    String.mk (unescapeQuotes s.data.tail.dropLast)
  else s

/-- Parsing one data row back into a record: exactly four fields. -/
def parseRecordRow : List String → Option EC2Instance
  | [a, i, t, ty] => some ⟨a, i, t, ty⟩
  | _ => none

/-- Parsing a list of data rows back into records. -/
def parseRows : List (List String) → Option (List EC2Instance)
  | [] => some []
  | row :: rest =>
    match parseRecordRow row with
    | none => none
    | some r =>
      match parseRows rest with
      | none => none
      | some rs => some (r :: rs)

/-- Parsing a whole CSV row list: the first row must be the header, the
remaining rows are data rows. -/
def parseCSVRows : List (List String) → Option (List EC2Instance)
  | [] => none
  | h :: rest => if h = headerRow then parseRows rest else none

/-! ### Console rendering (`main`, lines 189-207) -/

/-- The separator printed by `strings.Repeat ("=", 95)`. -/
def separatorLine : String :=
  String.mk (List.replicate 95 '=')

/-- Left-justified padding of `fmt.Printf "%-ws"`: pad with spaces to width
`w`, never truncate. -/
def padRight (s : String) (w : Nat) : String :=
  s ++ String.mk (List.replicate (w - s.length) ' ')

/-- One console table line, widths 15/20/30/20 separated by single spaces
(line 197). -/
def consoleRow (r : EC2Instance) : String :=
  padRight r.accountID 15 ++ " " ++ padRight r.instanceID 20 ++ " " ++
    padRight r.tagName 30 ++ " " ++ padRight r.instanceType 20

/-- The console table header line (line 190). -/
def consoleHeaderLine : String :=
  padRight "Account ID" 15 ++ " " ++ padRight "Instance ID" 20 ++ " " ++
    padRight "Tag Name" 30 ++ " " ++ padRight "Instance Type" 20

/-- The table body: a placeholder message when no records, one line per
record otherwise (lines 193-204). -/
def consoleBody (records : List EC2Instance) : List String :=
  if records = [] then ["조회된 EC2 인스턴스가 없습니다."] else records.map consoleRow

/-- The count reported by the summary line: `len(allInstances)`. -/
def summaryCount (records : List EC2Instance) : Nat :=
  records.length

/-- The summary line (line 207). -/
def summaryLine (records : List EC2Instance) : String :=
  "총 " ++ toString (summaryCount records) ++ "개 인스턴스 조회 완료"

/-- The console lines printed by `main`, in order: blank line, separator,
header, separator, body, separator, summary. -/
def consoleLines (records : List EC2Instance) : List String :=
  ["", separatorLine, consoleHeaderLine, separatorLine] ++ consoleBody records ++
    [separatorLine, summaryLine records]

/-! ### Output filename (`main`, lines 210-211) -/

/-- A wall-clock timestamp. -/
structure DateTime where
  year : Nat
  month : Nat
  day : Nat
  hour : Nat
  minute : Nat
  second : Nat
  deriving Repr, DecidableEq

/-- The decimal digit character for `n % 10`. -/
def digitChar (n : Nat) : Char :=
  Char.ofNat (48 + n % 10)

/-- Zero-padded two-digit decimal rendering (Go layout components
`01 02 15 04 05`); agrees with Go for every in-range field value
(`n < 100`). -/
def pad2 (n : Nat) : String :=
  ⟨[digitChar (n / 10), digitChar n]⟩

/-- Zero-padded four-digit decimal rendering (Go layout component `2006`);
agrees with Go for every in-range year (`n < 10000`). -/
def pad4 (n : Nat) : String :=
  ⟨[digitChar (n / 1000), digitChar (n / 100), digitChar (n / 10), digitChar n]⟩

/-- `time.Format ("20060102_150405")`. -/
def formatTimestamp (t : DateTime) : String :=
  pad4 t.year ++ pad2 t.month ++ pad2 t.day ++ "_" ++
    pad2 t.hour ++ pad2 t.minute ++ pad2 t.second

/-- The CSV filename built from a timestamp (line 211). -/
def outputFileName (t : DateTime) : String :=
  "ec2_instances_" ++ formatTimestamp t ++ ".csv"

/-- The filename `main` actually uses: `time.Now()` is called at line 210,
after `wg.Wait()` and the console output, immediately before `writeCSV` —
so the name is built from the CSV-write time, not from the program start
time. -/
def mainOutputFileName (startTime csvWriteTime : DateTime) : String :=
  outputFileName csvWriteTime

/-! ### Helper lemmas -/

/-- A successful Name-tag scan returns exactly what the spec's wording
describes: the value of the first tag keyed `"Name"`, or `"-"`. -/
theorem findNameTag_eq_spec {tags : List AwsTag} {s : String}
    (h : findNameTag tags = some s) : s = specTagName tags := by
  induction tags with
  | nil =>
    simp only [findNameTag, Option.some.injEq] at h
    simp [specTagName, h.symm]
  | cons t ts ih =>
    cases hk : t.key with
    | none => simp [findNameTag, hk] at h
    | some k =>
      by_cases hkn : k = "Name"
      · subst hkn
        simp [findNameTag, hk] at h
        simp [specTagName, hk, h]
      · simp only [findNameTag, hk, if_neg hkn] at h
        simp only [specTagName, hk, Option.some.injEq, hkn, if_false]
        exact ih h

/-- Non-nil pointers in one instance: the identifier and every tag's key and
value are present. -/
def nonNilInstance (i : AwsInstance) : Prop :=
  i.instanceId.isSome = true ∧ ∀ t ∈ i.tags, t.key.isSome = true ∧ t.value.isSome = true

instance (i : AwsInstance) : Decidable (nonNilInstance i) := by
  unfold nonNilInstance
  infer_instance

theorem findNameTag_isSome {tags : List AwsTag}
    (h : ∀ t ∈ tags, t.key.isSome = true ∧ t.value.isSome = true) :
    (findNameTag tags).isSome = true := by
  induction tags with
  | nil => rfl
  | cons t ts ih =>
    obtain ⟨hk, hv⟩ := h t (by simp)
    cases hkk : t.key with
    | none => simp [hkk] at hk
    | some k =>
      by_cases hkn : k = "Name"
      · subst hkn
        simpa [findNameTag, hkk] using hv
      · simp only [findNameTag, hkk, if_neg hkn]
        exact ih (fun t ht => h t (by simp [ht]))

theorem mkRecord_isSome {a : String} {i : AwsInstance} (h : nonNilInstance i) :
    (mkRecord a i).isSome = true := by
  obtain ⟨hid, htags⟩ := h
  cases hi : i.instanceId with
  | none => simp [hi] at hid
  | some iid =>
    have hf := findNameTag_isSome htags
    cases hft : findNameTag i.tags with
    | none => simp [hft] at hf
    | some tn => simp [mkRecord, hi, hft]

theorem collectLoop_isSome {a : String} {l : List AwsInstance}
    (h : ∀ i ∈ l, nonNilInstance i) : (collectLoop a l).isSome = true := by
  induction l with
  | nil => rfl
  | cons i is ih =>
    have h1 := mkRecord_isSome (a := a) (h i (by simp))
    have h2 := ih (fun j hj => h j (by simp [hj]))
    cases hm : mkRecord a i with
    | none => simp [hm] at h1
    | some r =>
      cases hc : collectLoop a is with
      | none => simp [hc] at h2
      | some rs => simp [collectLoop, hm, hc]

/-- Every record built by `mkRecord` is stamped with the fetching account. -/
theorem mkRecord_accountID {a : String} {i : AwsInstance} {r : EC2Instance}
    (h : mkRecord a i = some r) : r.accountID = a := by
  unfold mkRecord at h
  cases hi : i.instanceId with
  | none => simp [hi] at h
  | some iid =>
    cases hft : findNameTag i.tags with
    | none => simp [hi, hft] at h
    | some tn =>
      simp only [hi, hft, Option.some.injEq] at h
      rw [← h]

theorem collectLoop_accountID {a : String} {l : List AwsInstance}
    {rs : List EC2Instance} (h : collectLoop a l = some rs) :
    ∀ r ∈ rs, r.accountID = a := by
  induction l generalizing rs with
  | nil =>
    simp only [collectLoop, Option.some.injEq] at h
    subst h
    simp
  | cons i is ih =>
    unfold collectLoop at h
    cases hm : mkRecord a i with
    | none => simp [hm] at h
    | some r0 =>
      cases hc : collectLoop a is with
      | none => simp [hm, hc] at h
      | some rs0 =>
        simp only [hm, hc, Option.some.injEq] at h
        subst h
        intro r hr
        rcases List.mem_cons.mp hr with h1 | h2
        · subst h1
          exact mkRecord_accountID hm
        · exact ih hc r h2

/-- Every record in a fetch result carries the fetched account's id. -/
theorem getEC2Instances_accountID {a : String} {env : FetchEnv}
    {l : List EC2Instance} (h : (getEC2Instances a env).1 = some l) :
    ∀ r ∈ l, r.accountID = a := by
  unfold getEC2Instances at h
  cases hc : env.cfgLoad with
  | error e =>
    rw [hc] at h
    simp only [Option.some.injEq] at h
    subst h
    simp
  | ok u =>
    rw [hc] at h
    cases hd : env.describe 0 with
    | error e =>
      rw [hd] at h
      simp only [Option.some.injEq] at h
      subst h
      simp
    | ok resp =>
      rw [hd] at h
      exact collectLoop_accountID h

/-- Every per-account list collected by the fan-out comes from one of the
dispatched accounts. -/
theorem fetchAll_mem {envOf : String → FetchEnv} {accounts : List (String × String)}
    {ls : List (List EC2Instance)} (h : fetchAll envOf accounts = some ls) :
    ∀ l ∈ ls, ∃ p ∈ accounts, (getEC2Instances p.1 (envOf p.1)).1 = some l := by
  induction accounts generalizing ls with
  | nil =>
    simp only [fetchAll, Option.some.injEq] at h
    subst h
    simp
  | cons p ps ih =>
    unfold fetchAll at h
    cases hf : (getEC2Instances p.1 (envOf p.1)).1 with
    | none => simp [hf] at h
    | some l0 =>
      cases hr : fetchAll envOf ps with
      | none => simp [hf, hr] at h
      | some ls0 =>
        simp only [hf, hr, Option.some.injEq] at h
        subst h
        intro l hl
        rcases List.mem_cons.mp hl with h1 | h2
        · exact ⟨p, by simp, h1 ▸ hf⟩
        · obtain ⟨q, hq, hql⟩ := ih hr l h2
          exact ⟨q, by simp [hq], hql⟩

/-- The fan-out completes whenever no per-account fetch panics. -/
theorem fetchAll_isSome {envOf : String → FetchEnv} {accounts : List (String × String)}
    (h : ∀ p ∈ accounts, ((getEC2Instances p.1 (envOf p.1)).1).isSome = true) :
    (fetchAll envOf accounts).isSome = true := by
  induction accounts with
  | nil => rfl
  | cons p ps ih =>
    have h1 := h p (by simp)
    have h2 := ih (fun q hq => h q (by simp [hq]))
    cases hf : (getEC2Instances p.1 (envOf p.1)).1 with
    | none => simp [hf] at h1
    | some l =>
      cases hr : fetchAll envOf ps with
      | none => simp [hr] at h2
      | some ls => simp [fetchAll, hf, hr]

/-- A config-load error or an inventory-query error makes the fetch send the
empty slice. -/
theorem getEC2Instances_error_empty {a : String} {env : FetchEnv}
    (h : exceptFailed env.cfgLoad = true ∨ exceptFailed (env.describe 0) = true) :
    (getEC2Instances a env).1 = some [] := by
  unfold getEC2Instances
  cases hc : env.cfgLoad with
  | error e => rfl
  | ok u =>
    cases hd : env.describe 0 with
    | error e => rfl
    | ok resp =>
      rcases h with h1 | h1
      · rw [hc] at h1
        simp [exceptFailed] at h1
      · rw [hd] at h1
        simp [exceptFailed] at h1

/-- The CSV row list is always one header row plus one row per record. -/
theorem csvRows_length (records : List EC2Instance) :
    (csvRows records).length = 1 + records.length := by
  simp [csvRows, Nat.add_comm]

/-- The part of the first `DescribeInstances` response the fetch actually
consumes: its reservations (the pagination token is ignored). -/
def firstPageReservations (env : FetchEnv) : Except String (List Reservation) :=
  match env.describe 0 with
  | .error e => .error e
  | .ok resp => .ok resp.reservations

/-! ### Claim theorems -/

/-- C1: for every instance record produced by the fetcher, `tagName` equals
the value of the first tag whose key is exactly `"Name"` (case-sensitive),
and equals `"-"` when no such tag exists, including when the instance has no
tags at all. -/
theorem tagName_eq_first_name_tag (a : String) (inst : AwsInstance) (rec : EC2Instance)
    (h : mkRecord a inst = some rec) :
    rec.tagName = specTagName inst.tags ∧ specTagName [] = "-" := by
  refine ⟨?_, rfl⟩
  unfold mkRecord at h
  cases hid : inst.instanceId with
  | none => simp [hid] at h
  | some iid =>
    cases hft : findNameTag inst.tags with
    | none => simp [hid, hft] at h
    | some tn =>
      simp only [hid, hft, Option.some.injEq] at h
      have hs := findNameTag_eq_spec hft
      rw [← h]
      exact hs

/-- Witness for C1 at a concrete instance whose second tag is the first
`"Name"` tag. -/
theorem tagName_eq_first_name_tag_witness :
    mkRecord "111" ⟨some "i-abc", "t3.micro",
        [⟨some "env", some "prod"⟩, ⟨some "Name", some "web1"⟩]⟩ =
      some ⟨"111", "i-abc", "web1", "t3.micro"⟩ ∧
      ((⟨"111", "i-abc", "web1", "t3.micro"⟩ : EC2Instance).tagName =
          specTagName [⟨some "env", some "prod"⟩, ⟨some "Name", some "web1"⟩] ∧
        specTagName [] = "-") :=
  ⟨by decide,
    tagName_eq_first_name_tag "111"
      ⟨some "i-abc", "t3.micro", [⟨some "env", some "prod"⟩, ⟨some "Name", some "web1"⟩]⟩
      ⟨"111", "i-abc", "web1", "t3.micro"⟩ (by decide)⟩

/-- C10: the record-construction step dereferences the instance id and tag
key/value pointers without nil checks — it is panic-free whenever every
instance of the response has a non-nil identifier and non-nil tag pointers,
and a nil identifier, key or value makes it panic. -/
theorem collect_total_under_nonnil (a : String) (reservations : List Reservation)
    (h : ∀ i ∈ allInstancesOf reservations, nonNilInstance i) :
    (collectRecords a reservations).isSome = true ∧
      mkRecord a ⟨none, "t3.micro", []⟩ = none ∧
      mkRecord a ⟨some "i-1", "t3.micro", [⟨none, some "v"⟩]⟩ = none ∧
      mkRecord a ⟨some "i-1", "t3.micro", [⟨some "Name", none⟩]⟩ = none :=
  ⟨collectLoop_isSome h, rfl, rfl, rfl⟩

/-- Witness for C10 on a concrete one-reservation response with all
pointers present. -/
theorem collect_total_under_nonnil_witness :
    (∀ i ∈ allInstancesOf [⟨[⟨some "i-abc", "t3.micro", [⟨some "Name", some "web1"⟩]⟩]⟩],
        nonNilInstance i) ∧
      ((collectRecords "111"
            [⟨[⟨some "i-abc", "t3.micro", [⟨some "Name", some "web1"⟩]⟩]⟩]).isSome = true ∧
        mkRecord "111" ⟨none, "t3.micro", []⟩ = none ∧
        mkRecord "111" ⟨some "i-1", "t3.micro", [⟨none, some "v"⟩]⟩ = none ∧
        mkRecord "111" ⟨some "i-1", "t3.micro", [⟨some "Name", none⟩]⟩ = none) :=
  ⟨by decide,
    collect_total_under_nonnil "111"
      [⟨[⟨some "i-abc", "t3.micro", [⟨some "Name", some "web1"⟩]⟩]⟩] (by decide)⟩

/-- C2: a fetch whose credential-configuration load or inventory query
errors never fails outward: it yields `some []` (an empty record list, not
an error), the overall run still completes and produces a CSV with a header
row, and the failing account contributes exactly zero records to the merged
list. -/
theorem fetch_error_never_fails_outward (a : String) (envOf : String → FetchEnv)
    (accounts : List (String × String))
    (hfail : exceptFailed (envOf a).cfgLoad = true ∨
      exceptFailed ((envOf a).describe 0) = true)
    (hok : ∀ p ∈ accounts, ((getEC2Instances p.1 (envOf p.1)).1).isSome = true) :
    (getEC2Instances a (envOf a)).1 = some [] ∧
      ∃ merged, runAll accounts envOf = some merged ∧
        merged.filter (fun r => r.accountID == a) = [] ∧
        (csvRows merged).length = 1 + merged.length := by
  have hempty : (getEC2Instances a (envOf a)).1 = some [] :=
    getEC2Instances_error_empty hfail
  refine ⟨hempty, ?_⟩
  have hsome := fetchAll_isSome hok
  cases hfa : fetchAll envOf accounts with
  | none => simp [hfa] at hsome
  | some ls =>
    refine ⟨ls.flatten, by simp [runAll, hfa], ?_, csvRows_length ls.flatten⟩
    rw [List.filter_eq_nil_iff]
    intro r hr
    obtain ⟨l, hl, hrl⟩ := List.mem_flatten.mp hr
    obtain ⟨p, hp, hpl⟩ := fetchAll_mem hfa l hl
    have hacct : r.accountID = p.1 := getEC2Instances_accountID hpl r hrl
    by_cases hpa : p.1 = a
    · rw [hpa] at hpl
      rw [hempty] at hpl
      simp only [Option.some.injEq] at hpl
      subst hpl
      simp at hrl
    · simp [hacct, hpa]

/-- Witness for C2: account `"222"` fails its inventory query, account
`"111"` succeeds with an empty fleet; the run completes with an empty merged
list and a one-row CSV. -/
theorem fetch_error_never_fails_outward_witness :
    (exceptFailed ((fun id => if id = "222" then
          (⟨Except.ok (), fun _ => Except.error "throttled"⟩ : FetchEnv)
        else ⟨Except.ok (), fun _ => Except.ok ⟨[], none⟩⟩) "222").cfgLoad = true ∨
      exceptFailed (((fun id => if id = "222" then
          (⟨Except.ok (), fun _ => Except.error "throttled"⟩ : FetchEnv)
        else ⟨Except.ok (), fun _ => Except.ok ⟨[], none⟩⟩) "222").describe 0) = true) ∧
      ((getEC2Instances "222" ((fun id => if id = "222" then
            (⟨Except.ok (), fun _ => Except.error "throttled"⟩ : FetchEnv)
          else ⟨Except.ok (), fun _ => Except.ok ⟨[], none⟩⟩) "222")).1 = some [] ∧
        ∃ merged, runAll [("111", "r1"), ("222", "r2")] (fun id => if id = "222" then
            (⟨Except.ok (), fun _ => Except.error "throttled"⟩ : FetchEnv)
          else ⟨Except.ok (), fun _ => Except.ok ⟨[], none⟩⟩) = some merged ∧
          merged.filter (fun r => r.accountID == "222") = [] ∧
          (csvRows merged).length = 1 + merged.length) :=
  ⟨Or.inr rfl,
    fetch_error_never_fails_outward "222"
      (fun id => if id = "222" then
          (⟨Except.ok (), fun _ => Except.error "throttled"⟩ : FetchEnv)
        else ⟨Except.ok (), fun _ => Except.ok ⟨[], none⟩⟩)
      [("111", "r1"), ("222", "r2")] (Or.inr rfl) (by decide)⟩

/-- C7: with credentials configured, the fetch issues exactly one inventory
query, its records depend only on the reservations of the first response
page (identical first-page reservations give identical results, whatever
later pages or the pagination token hold), and no execution of the fetch
ever issues more than one query. -/
theorem fetch_single_query_first_page (a : String) (env env' : FetchEnv)
    (hok : exceptFailed env.cfgLoad = false)
    (hok' : exceptFailed env'.cfgLoad = false)
    (hfst : firstPageReservations env = firstPageReservations env') :
    (getEC2Instances a env).2 = 1 ∧
      (getEC2Instances a env).1 = (getEC2Instances a env').1 ∧
      ∀ env₂ : FetchEnv, (getEC2Instances a env₂).2 ≤ 1 := by
  refine ⟨?_, ?_, ?_⟩
  · unfold getEC2Instances
    cases hc : env.cfgLoad with
    | error e =>
      rw [hc] at hok
      simp [exceptFailed] at hok
    | ok u => cases env.describe 0 <;> rfl
  · unfold getEC2Instances
    unfold firstPageReservations at hfst
    cases hc : env.cfgLoad with
    | error e =>
      rw [hc] at hok
      simp [exceptFailed] at hok
    | ok u =>
      cases hc' : env'.cfgLoad with
      | error e =>
        rw [hc'] at hok'
        simp [exceptFailed] at hok'
      | ok u' =>
        cases hd : env.describe 0 with
        | error e =>
          rw [hd] at hfst
          cases hd' : env'.describe 0 with
          | error e' => rfl
          | ok resp' =>
            rw [hd'] at hfst
            simp at hfst
        | ok resp =>
          rw [hd] at hfst
          cases hd' : env'.describe 0 with
          | error e' =>
            rw [hd'] at hfst
            simp at hfst
          | ok resp' =>
            rw [hd'] at hfst
            simp only [Except.ok.injEq] at hfst
            simp [collectRecords, hfst]
  · intro env₂
    unfold getEC2Instances
    cases env₂.cfgLoad with
    | error e => exact Nat.zero_le 1
    | ok u => cases env₂.describe 0 <;> exact Nat.le_refl 1

/-- Witness for C7: two environments sharing the first page's reservations
but disagreeing on the pagination token and the second page yield the same
records from one query each. -/
theorem fetch_single_query_first_page_witness :
    (exceptFailed (FetchEnv.mk (Except.ok ())
        (fun n => if n = 0 then Except.ok ⟨[⟨[⟨some "i-abc", "t3.micro", []⟩]⟩], some "tok"⟩
          else Except.ok ⟨[⟨[⟨some "i-extra", "m5.large", []⟩]⟩], none⟩)).cfgLoad = false) ∧
      (exceptFailed (FetchEnv.mk (Except.ok ())
          (fun _ => Except.ok ⟨[⟨[⟨some "i-abc", "t3.micro", []⟩]⟩], none⟩)).cfgLoad = false) ∧
      firstPageReservations (FetchEnv.mk (Except.ok ())
          (fun n => if n = 0 then Except.ok ⟨[⟨[⟨some "i-abc", "t3.micro", []⟩]⟩], some "tok"⟩
            else Except.ok ⟨[⟨[⟨some "i-extra", "m5.large", []⟩]⟩], none⟩)) =
        firstPageReservations (FetchEnv.mk (Except.ok ())
          (fun _ => Except.ok ⟨[⟨[⟨some "i-abc", "t3.micro", []⟩]⟩], none⟩)) ∧
      ((getEC2Instances "111" (FetchEnv.mk (Except.ok ())
          (fun n => if n = 0 then Except.ok ⟨[⟨[⟨some "i-abc", "t3.micro", []⟩]⟩], some "tok"⟩
            else Except.ok ⟨[⟨[⟨some "i-extra", "m5.large", []⟩]⟩], none⟩))).2 = 1 ∧
        (getEC2Instances "111" (FetchEnv.mk (Except.ok ())
            (fun n => if n = 0 then Except.ok ⟨[⟨[⟨some "i-abc", "t3.micro", []⟩]⟩], some "tok"⟩
              else Except.ok ⟨[⟨[⟨some "i-extra", "m5.large", []⟩]⟩], none⟩))).1 =
          (getEC2Instances "111" (FetchEnv.mk (Except.ok ())
            (fun _ => Except.ok ⟨[⟨[⟨some "i-abc", "t3.micro", []⟩]⟩], none⟩))).1 ∧
        ∀ env₂ : FetchEnv, (getEC2Instances "111" env₂).2 ≤ 1) :=
  ⟨rfl, rfl, rfl,
    fetch_single_query_first_page "111"
      (FetchEnv.mk (Except.ok ())
        (fun n => if n = 0 then Except.ok ⟨[⟨[⟨some "i-abc", "t3.micro", []⟩]⟩], some "tok"⟩
          else Except.ok ⟨[⟨[⟨some "i-extra", "m5.large", []⟩]⟩], none⟩))
      (FetchEnv.mk (Except.ok ())
        (fun _ => Except.ok ⟨[⟨[⟨some "i-abc", "t3.micro", []⟩]⟩], none⟩))
      rfl rfl rfl⟩

/-- C9: every record of a completed merged run carries an `accountID` that
is a key of the loaded account mapping. -/
theorem merged_accountIDs_from_accounts (accounts : List (String × String))
    (envOf : String → FetchEnv) (merged : List EC2Instance)
    (hrun : runAll accounts envOf = some merged) :
    ∀ r ∈ merged, r.accountID ∈ accountKeys accounts := by
  unfold runAll at hrun
  obtain ⟨ls, hls, hflat⟩ := Option.map_eq_some'.mp hrun
  subst hflat
  intro r hr
  obtain ⟨l, hl, hrl⟩ := List.mem_flatten.mp hr
  obtain ⟨p, hp, hpl⟩ := fetchAll_mem hls l hl
  have hacct : r.accountID = p.1 := getEC2Instances_accountID hpl r hrl
  rw [hacct]
  exact List.mem_map.mpr ⟨p, hp, rfl⟩

/-- Witness for C9: a one-account run whose single record is stamped with
the only configured account id. -/
theorem merged_accountIDs_from_accounts_witness :
    runAll [("111", "r1")]
        (fun _ => ⟨Except.ok (),
          fun _ => Except.ok ⟨[⟨[⟨some "i-abc", "t3.micro", []⟩]⟩], none⟩⟩) =
      some [⟨"111", "i-abc", "-", "t3.micro"⟩] ∧
      ∀ r ∈ [(⟨"111", "i-abc", "-", "t3.micro"⟩ : EC2Instance)],
        r.accountID ∈ accountKeys [("111", "r1")] :=
  ⟨by decide,
    merged_accountIDs_from_accounts [("111", "r1")]
      (fun _ => ⟨Except.ok (),
        fun _ => Except.ok ⟨[⟨[⟨some "i-abc", "t3.micro", []⟩]⟩], none⟩⟩)
      [⟨"111", "i-abc", "-", "t3.micro"⟩] (by decide)⟩

/-- Escaping a nonempty field never yields the empty character list. -/
theorem escapeQuotes_ne_nil {c : Char} {cs : List Char} : escapeQuotes (c :: cs) ≠ [] := by
  by_cases hc : c = '"' <;> simp [escapeQuotes, hc]

/-- Collapsing doubled quotes undoes quote escaping. -/
theorem unescape_escape (cs : List Char) : unescapeQuotes (escapeQuotes cs) = cs := by
  induction cs with
  | nil => rfl
  | cons c rest ih =>
    by_cases hc : c = '"'
    · subst hc
      simp only [escapeQuotes, if_pos rfl]
      simp [unescapeQuotes, ih]
    · simp only [escapeQuotes, if_neg hc]
      cases rest with
      | nil => rfl
      | cons x xs =>
        cases hesc : escapeQuotes (x :: xs) with
        | nil => exact absurd hesc escapeQuotes_ne_nil
        | cons d ds =>
          rw [hesc] at ih
          simp [unescapeQuotes, hc, ih]

/-- A field containing a double quote is always quoted by the writer. -/
theorem fieldNeedsQuotes_of_quote_head {cs : List Char} {s : String}
    (hd : s.data = '"' :: cs) : fieldNeedsQuotes s = true := by
  have hne : ¬s = "" := by
    intro h
    subst h
    simp at hd
  have hq : s.data.any (fun c => c = ',' || c = '"' || c = '\r' || c = '\n') = true := by
    rw [hd]
    simp
  unfold fieldNeedsQuotes
  rw [if_neg hne]
  by_cases hbs : s = "\\."
  · rw [if_pos hbs]
  · rw [if_neg hbs, if_pos hq]

/-- Field-level round trip: parsing a rendered field recovers the field,
for every string, quoted or not. -/
theorem parseField_renderField (s : String) : parseField (renderField s) = s := by
  by_cases hq : fieldNeedsQuotes s
  · simp only [renderField, if_pos hq]
    unfold parseField
    simp [List.getLast?_concat, List.dropLast_concat, unescape_escape]
  · simp only [renderField, if_neg hq]
    unfold parseField
    cases hd : s.data with
    | nil => simp
    | cons c cs =>
      by_cases hc : c = '"'
      · subst hc
        exact absurd (fieldNeedsQuotes_of_quote_head hd) hq
      · rw [if_neg (by simp [hc])]

/-- Row-level round trip for the data rows. -/
theorem parseRows_map_recordRow (records : List EC2Instance) :
    parseRows (records.map recordRow) = some records := by
  induction records with
  | nil => rfl
  | cons r rs ih => simp [parseRows, recordRow, parseRecordRow, ih]

/-- C3: the generated CSV has exactly one header row plus one row per record
in list order, the header renders as
`Account ID,Instance ID,Tag Name,Instance Type`, parsing the rows back
yields the in-memory record list itself (hence the same set regardless of
order), and field quoting is lossless for every string. -/
theorem csv_header_rows_roundtrip (records : List EC2Instance) :
    (csvRows records).length = 1 + records.length ∧
      (csvRows records).head? = some headerRow ∧
      renderRow headerRow = "Account ID,Instance ID,Tag Name,Instance Type" ∧
      parseCSVRows (csvRows records) = some records ∧
      ∀ s : String, parseField (renderField s) = s := by
  refine ⟨csvRows_length records, rfl, rfl, ?_, parseField_renderField⟩
  simp [parseCSVRows, csvRows, parseRows_map_recordRow]

/-- Permuting the outer list of lists permutes the concatenation. -/
theorem flatten_perm_of_perm {α : Type} {l₁ l₂ : List (List α)} (h : l₁.Perm l₂) :
    l₁.flatten.Perm l₂.flatten := by
  induction h with
  | nil => exact .rfl
  | cons x h ih => simpa using ih.append_left x
  | swap x y l =>
    simp only [List.flatten_cons, ← List.append_assoc]
    exact List.perm_append_comm.append_right l.flatten
  | trans h₁ h₂ ih₁ ih₂ => exact ih₁.trans ih₂

/-- C5 counterexample: two runs over the same two per-account result lists,
received from the channel in the two possible completion orders, produce
CSV files with different byte content — the claim that two runs with
identical inventory data give byte-identical CSVs is false. -/
theorem csv_run_order_dependent_cex :
    List.Perm
        [[(⟨"111", "i-a", "-", "t3.micro"⟩ : EC2Instance)], [⟨"222", "i-b", "-", "m5.large"⟩]]
        [[(⟨"222", "i-b", "-", "m5.large"⟩ : EC2Instance)], [⟨"111", "i-a", "-", "t3.micro"⟩]] ∧
      csvContent (runMerged
          [[⟨"111", "i-a", "-", "t3.micro"⟩], [⟨"222", "i-b", "-", "m5.large"⟩]]) ≠
        csvContent (runMerged
          [[⟨"222", "i-b", "-", "m5.large"⟩], [⟨"111", "i-a", "-", "t3.micro"⟩]]) := by
  constructor
  · exact List.Perm.swap _ _ _
  · decide

/-- C5 amended: two runs over identical inventory data produce CSVs with the
same header and the same multiset of data rows — identical content up to the
order of the data rows (which depends on task completion order). -/
theorem csv_rows_same_up_to_order (arrival arrival2 : List (List EC2Instance))
    (h : arrival.Perm arrival2) :
    (csvRows (runMerged arrival)).Perm (csvRows (runMerged arrival2)) ∧
      (csvRows (runMerged arrival)).length = (csvRows (runMerged arrival2)).length ∧
      (csvRows (runMerged arrival)).head? = some headerRow ∧
      (csvRows (runMerged arrival2)).head? = some headerRow := by
  have hperm : (runMerged arrival).Perm (runMerged arrival2) := flatten_perm_of_perm h
  have hrows : (csvRows (runMerged arrival)).Perm (csvRows (runMerged arrival2)) :=
    List.Perm.cons headerRow (hperm.map recordRow)
  exact ⟨hrows, hrows.length_eq, rfl, rfl⟩

/-- Witness for the amended C5 at the concrete pair of arrival orders of the
counterexample. -/
theorem csv_rows_same_up_to_order_witness :
    List.Perm
        [[(⟨"111", "i-a", "-", "t3.micro"⟩ : EC2Instance)], [⟨"222", "i-b", "-", "m5.large"⟩]]
        [[(⟨"222", "i-b", "-", "m5.large"⟩ : EC2Instance)], [⟨"111", "i-a", "-", "t3.micro"⟩]] ∧
      ((csvRows (runMerged
            [[⟨"111", "i-a", "-", "t3.micro"⟩], [⟨"222", "i-b", "-", "m5.large"⟩]])).Perm
          (csvRows (runMerged
            [[⟨"222", "i-b", "-", "m5.large"⟩], [⟨"111", "i-a", "-", "t3.micro"⟩]])) ∧
        (csvRows (runMerged
            [[⟨"111", "i-a", "-", "t3.micro"⟩], [⟨"222", "i-b", "-", "m5.large"⟩]])).length =
          (csvRows (runMerged
            [[⟨"222", "i-b", "-", "m5.large"⟩], [⟨"111", "i-a", "-", "t3.micro"⟩]])).length ∧
        (csvRows (runMerged
            [[⟨"111", "i-a", "-", "t3.micro"⟩], [⟨"222", "i-b", "-", "m5.large"⟩]])).head? =
          some headerRow ∧
        (csvRows (runMerged
            [[⟨"222", "i-b", "-", "m5.large"⟩], [⟨"111", "i-a", "-", "t3.micro"⟩]])).head? =
          some headerRow) :=
  ⟨List.Perm.swap _ _ _,
    csv_rows_same_up_to_order
      [[⟨"111", "i-a", "-", "t3.micro"⟩], [⟨"222", "i-b", "-", "m5.large"⟩]]
      [[⟨"222", "i-b", "-", "m5.large"⟩], [⟨"111", "i-a", "-", "t3.micro"⟩]]
      (List.Perm.swap _ _ _)⟩

/-- C8: the console table's top and bottom separator lines are exactly 95
characters, and the summary line reports the record count, which equals the
number of CSV rows minus the header row. -/
theorem console_separators_and_summary (records : List EC2Instance) :
    separatorLine.length = 95 ∧
      (consoleLines records)[1]? = some separatorLine ∧
      (consoleLines records).dropLast.getLast? = some separatorLine ∧
      summaryCount records = (csvRows records).length - 1 ∧
      summaryLine records =
        "총 " ++ toString ((csvRows records).length - 1) ++ "개 인스턴스 조회 완료" := by
  have hcount : summaryCount records = (csvRows records).length - 1 := by
    rw [csvRows_length]
    unfold summaryCount
    omega
  refine ⟨rfl, rfl, ?_, hcount, ?_⟩
  · have h1 : consoleLines records =
        (((["", separatorLine, consoleHeaderLine, separatorLine] ++ consoleBody records) ++
          [separatorLine]) ++ [summaryLine records]) := by
      simp [consoleLines]
    rw [h1, List.dropLast_concat, List.getLast?_concat]
  · unfold summaryLine
    rw [hcount]

/-- C6 counterexample: with the program started one second before the CSV is
written, the produced filename is not the one built from the start time —
the timestamp in the filename is taken when the CSV is written, after all
fetches complete. -/
theorem filename_not_start_time_cex :
    mainOutputFileName ⟨2024, 1, 15, 14, 30, 25⟩ ⟨2024, 1, 15, 14, 30, 26⟩ ≠
      outputFileName ⟨2024, 1, 15, 14, 30, 25⟩ ∧
      mainOutputFileName ⟨2024, 1, 15, 14, 30, 25⟩ ⟨2024, 1, 15, 14, 30, 26⟩ =
        "ec2_instances_20240115_143026.csv" := by
  constructor
  · decide
  · rfl

/-- C6 amended: the output filename is exactly
`ec2_instances_<YYYYMMDD_HHMMSS>.csv` where the timestamp is the local
wall-clock time at which the CSV is about to be written (after all fetches
complete), not the program start time: a 15-character zero-padded stamp with
`_` separating date and time. -/
theorem filename_uses_write_time (startTime csvWriteTime : DateTime) :
    mainOutputFileName startTime csvWriteTime = outputFileName csvWriteTime ∧
      outputFileName csvWriteTime =
        "ec2_instances_" ++ formatTimestamp csvWriteTime ++ ".csv" ∧
      (formatTimestamp csvWriteTime).length = 15 ∧
      (formatTimestamp csvWriteTime).data[8]? = some '_' :=
  ⟨rfl, rfl, rfl, rfl⟩

/-- Generalisation of `loadAccounts` to an arbitrary starting map. -/
def insertAll (m : List (String × String)) (configs : List AccountConfig) :
    List (String × String) :=
  configs.foldl (fun acc c => insertAccount acc c.accountID c.roleArn) m

theorem loadAccounts_eq_insertAll (configs : List AccountConfig) :
    loadAccounts configs = insertAll [] configs := rfl

theorem mem_accountKeys_insertAccount (m : List (String × String)) (k v k' : String) :
    k' ∈ accountKeys (insertAccount m k v) ↔ k' ∈ accountKeys m ∨ k' = k := by
  induction m with
  | nil => simp [insertAccount, accountKeys]
  | cons p rest ih =>
    by_cases hp : p.1 = k
    · simp only [insertAccount, if_pos hp, accountKeys, List.map_cons, List.mem_cons]
      rw [hp]
      tauto
    · simp only [insertAccount, if_neg hp, accountKeys, List.map_cons, List.mem_cons]
      rw [show (List.map Prod.fst (insertAccount rest k v) : List String) =
        accountKeys (insertAccount rest k v) from rfl, ih]
      tauto

theorem nodup_accountKeys_insertAccount {m : List (String × String)} (k v : String)
    (h : (accountKeys m).Nodup) : (accountKeys (insertAccount m k v)).Nodup := by
  induction m with
  | nil => simp [insertAccount, accountKeys]
  | cons p rest ih =>
    simp only [accountKeys, List.map_cons, List.nodup_cons] at h
    obtain ⟨hp1, hrest⟩ := h
    by_cases hp : p.1 = k
    · simp only [insertAccount, if_pos hp, accountKeys, List.map_cons, List.nodup_cons]
      exact ⟨hp ▸ hp1, hrest⟩
    · simp only [insertAccount, if_neg hp, accountKeys, List.map_cons, List.nodup_cons]
      refine ⟨?_, ih hrest⟩
      intro hmem
      rcases (mem_accountKeys_insertAccount rest k v p.1).mp hmem with h1 | h1
      · exact hp1 h1
      · exact hp h1

theorem lookup_insertAccount (m : List (String × String)) (k v k' : String) :
    (insertAccount m k v).lookup k' = if k' = k then some v else m.lookup k' := by
  induction m with
  | nil =>
    by_cases hk : k' = k
    · simp [insertAccount, List.lookup, hk]
    · simp [insertAccount, List.lookup, hk, beq_eq_false_iff_ne.mpr hk]
  | cons p rest ih =>
    by_cases hp : p.1 = k
    · by_cases hk : k' = k
      · simp [insertAccount, if_pos hp, List.lookup, hk]
      · have hkp : ¬(k' = p.1) := fun h => hk (h.trans hp)
        simp [insertAccount, if_pos hp, List.lookup, hk,
          beq_eq_false_iff_ne.mpr hk, beq_eq_false_iff_ne.mpr hkp]
    · by_cases hkp : k' = p.1
      · have hk : ¬(k' = k) := fun h => hp (hkp.symm.trans h)
        simp [insertAccount, if_neg hp, List.lookup, hkp, hk]
      · simp [insertAccount, if_neg hp, List.lookup, ih,
          beq_eq_false_iff_ne.mpr hkp]

theorem find?_append_first {α : Type} (p : α → Bool) (l₁ l₂ : List α) :
    (l₁ ++ l₂).find? p =
      match l₁.find? p with
      | some a => some a
      | none => l₂.find? p := by
  induction l₁ with
  | nil => simp
  | cons a l ih =>
    by_cases hp : p a = true
    · simp [List.find?_cons_of_pos, hp]
    · rw [List.cons_append, List.find?_cons_of_neg _ (by simp [hp]),
        List.find?_cons_of_neg _ (by simp [hp]), ih]

theorem mem_accountKeys_insertAll (configs : List AccountConfig) :
    ∀ (m : List (String × String)) (k : String),
      k ∈ accountKeys (insertAll m configs) ↔
        k ∈ accountKeys m ∨ k ∈ configs.map AccountConfig.accountID := by
  induction configs with
  | nil =>
    intro m k
    simp [insertAll]
  | cons c cs ih =>
    intro m k
    rw [show insertAll m (c :: cs) = insertAll (insertAccount m c.accountID c.roleArn) cs
      from rfl, ih, mem_accountKeys_insertAccount]
    simp only [List.map_cons, List.mem_cons]
    tauto

theorem nodup_accountKeys_insertAll (configs : List AccountConfig) :
    ∀ (m : List (String × String)), (accountKeys m).Nodup →
      (accountKeys (insertAll m configs)).Nodup := by
  induction configs with
  | nil =>
    intro m h
    exact h
  | cons c cs ih =>
    intro m h
    exact ih _ (nodup_accountKeys_insertAccount _ _ h)

theorem lookup_insertAll (configs : List AccountConfig) :
    ∀ (m : List (String × String)) (k : String),
      (insertAll m configs).lookup k =
        match configs.reverse.find? (fun c => c.accountID == k) with
        | some c => some c.roleArn
        | none => m.lookup k := by
  induction configs with
  | nil =>
    intro m k
    simp [insertAll]
  | cons c cs ih =>
    intro m k
    rw [show insertAll m (c :: cs) = insertAll (insertAccount m c.accountID c.roleArn) cs
      from rfl, ih, List.reverse_cons, find?_append_first]
    cases hf : cs.reverse.find? (fun x => x.accountID == k) with
    | some c' => rfl
    | none =>
      by_cases hck : c.accountID = k
      · rw [List.find?_cons_of_pos _ (by simp [hck])]
        rw [lookup_insertAccount, if_pos hck.symm]
      · rw [List.find?_cons_of_neg _ (by simp [hck]), List.find?_nil]
        rw [lookup_insertAccount, if_neg (fun h => hck h.symm)]

/-- C4: loading a config array builds a map keyed uniquely by account id
with last-wins role ARNs, and the coordinator invokes the fetcher exactly
once per unique account id (`K` goroutines for `K` unique ids). -/
theorem loadAccounts_unique_lastwins (configs : List AccountConfig) :
    fetcherInvocations configs = ((configs.map AccountConfig.accountID).dedup).length ∧
      (accountKeys (loadAccounts configs)).Nodup ∧
      (∀ k, k ∈ accountKeys (loadAccounts configs) ↔
        k ∈ configs.map AccountConfig.accountID) ∧
      ∀ k, (loadAccounts configs).lookup k =
        (configs.reverse.find? (fun c => c.accountID == k)).map AccountConfig.roleArn := by
  have hnodup : (accountKeys (loadAccounts configs)).Nodup := by
    rw [loadAccounts_eq_insertAll]
    exact nodup_accountKeys_insertAll configs [] (by simp [accountKeys])
  have hmem : ∀ k, k ∈ accountKeys (loadAccounts configs) ↔
      k ∈ configs.map AccountConfig.accountID := by
    intro k
    rw [loadAccounts_eq_insertAll, mem_accountKeys_insertAll]
    simp [accountKeys]
  have hlen : fetcherInvocations configs =
      ((configs.map AccountConfig.accountID).dedup).length := by
    have hperm : (accountKeys (loadAccounts configs)).Perm
        (configs.map AccountConfig.accountID).dedup := by
      rw [List.perm_ext_iff_of_nodup hnodup (List.nodup_dedup _)]
      intro a
      rw [hmem a, List.mem_dedup]
    have hkeys : (accountKeys (loadAccounts configs)).length =
        (loadAccounts configs).length := List.length_map _ _
    calc fetcherInvocations configs = (loadAccounts configs).length := rfl
      _ = (accountKeys (loadAccounts configs)).length := hkeys.symm
      _ = ((configs.map AccountConfig.accountID).dedup).length := hperm.length_eq
  refine ⟨hlen, hnodup, hmem, ?_⟩
  intro k
  rw [loadAccounts_eq_insertAll, lookup_insertAll]
  cases configs.reverse.find? (fun c => c.accountID == k) with
  | none => rfl
  | some c => rfl

end EC2Tools
